import Mathlib

/-!
# Verification of the automated social image generator

A shallow embedding of the repository's two core algorithms:

* `createSocialImage` (social-sharing module): the font-size search loop that
  finds the largest font size in the ladder 96, 92, ..., 24 at which the
  wrapped title text fits vertically on a 1200x630 canvas, and the final
  stroke/fill text drawing.
* `uploadToCloudinary`: the content-addressed publish protocol that hashes the
  encoded image bytes (MD5, hex digest), queries the remote store for an
  existing record, skips the upload when the stored context hash matches, and
  otherwise uploads with the hash attached as context metadata.

The external rasterizer (skia-canvas) is modelled as a measurement capability
`measureText : fontSize → wrapWidth → line heights`, and the remote store
(Cloudinary) as a map from identifiers to records carrying an optional
context hash.  Both are parameters of the embedded operations, mirroring how
the source consumes them.
-/

namespace SocialImages

/-! ## Canvas constants (createSocialImage) -/

/-- `new Canvas(1200, 630)`: the canvas width. -/
def canvasWidth : Nat := 1200

/-- `new Canvas(1200, 630)`: the canvas height. -/
def canvasHeight : Nat := 630

/-- `const textX = 50`. -/
def textX : Nat := 50

/-- `const textY = 100`. -/
def textY : Nat := 100

/-- `const maxWidth = width - textX * 2`. -/
def maxWidth : Nat := canvasWidth - textX * 2

/-- The vertical space available for text: the loop compares the total text
height against `height - textY`. -/
def availableHeight : Nat := canvasHeight - textY

/-- The width constraint actually passed to the measurement call:
`ctx.measureText(name, maxWidth - textX)`. -/
def measureCallWidth : Nat := maxWidth - textX

/-- The width passed to the drawing calls:
`ctx.strokeText(name, textX, textY, maxWidth)` and likewise `fillText`. -/
def drawTextWidth : Nat := maxWidth

/-! ## The font-size search loop -/

/-- `metrics.lines.reduce((acc, line) => acc + line.height, 0)`: the total
height of the wrapped lines. -/
def totalTextHeight (lines : List Nat) : Nat :=
  lines.foldl (fun acc line => acc + line) 0

/-- The `while (!textFits && fontSize >= 24)` loop of `createSocialImage`,
as a function of the wrapped line heights produced at each font size
(`measure fs` stands for `ctx.measureText(name, ...)` with the font set to
`fs`).  Returns the accepted font size, or `none` when the loop exits with
`fontSize < 24` and the function throws. -/
def fitFontSize (measure : Nat → List Nat) (fontSize : Nat) : Option Nat :=
  if h : 24 ≤ fontSize then
    if availableHeight < totalTextHeight (measure fontSize) then
      fitFontSize measure (fontSize - 4)
    else
      some fontSize
  else
    none
termination_by fontSize
decreasing_by omega

/-- The number of measurement passes (`ctx.measureText` calls) the loop
performs, following the same recursion as `fitFontSize`. -/
def fitPasses (measure : Nat → List Nat) (fontSize : Nat) : Nat :=
  if h : 24 ≤ fontSize then
    if availableHeight < totalTextHeight (measure fontSize) then
      fitPasses measure (fontSize - 4) + 1
    else
      1
  else
    0
termination_by fontSize
decreasing_by omega

/-- The size search of `createSocialImage`, starting from `fontSize = 96`,
measuring each attempt at width `maxWidth - textX` exactly as the source
does. -/
def createSocialImageFontSize (measureText : Nat → Nat → List Nat) : Option Nat :=
  fitFontSize (fun fs => measureText fs measureCallWidth) 96

/-- The measurement-pass count of `createSocialImage`'s search. -/
def createSocialImagePasses (measureText : Nat → Nat → List Nat) : Nat :=
  fitPasses (fun fs => measureText fs measureCallWidth) 96

/-- The whole of `createSocialImage`'s fallible part: on acceptance the text
is drawn (`strokeText` then `fillText` at `(textX, textY)` with max width
`maxWidth`) and the canvas is returned, modelled by the tuple of drawing
parameters; when the loop finds no size the function throws
`'Text is too long to fit on the image.'`. -/
def createSocialImage (measureText : Nat → Nat → List Nat) (name : String) :
    Except String (String × Nat × Nat × Nat × Nat) :=
  match fitFontSize (fun fs => measureText fs measureCallWidth) 96 with
  | some fs => Except.ok (name, fs, textX, textY, drawTextWidth)
  | none => Except.error "Text is too long to fit on the image."

/-- The ladder of candidate font sizes visited by the loop:
96, 92, ..., 24. -/
abbrev inLadder (s : Nat) : Prop := 24 ≤ s ∧ s ≤ 96 ∧ s % 4 = 0

/-! ## Characterisation of the search loop -/

theorem fitFontSize_some_spec (measure : Nat → List Nat) :
    ∀ fs s, fs % 4 = 0 → fitFontSize measure fs = some s →
      24 ≤ s ∧ s ≤ fs ∧ s % 4 = 0 ∧
      totalTextHeight (measure s) ≤ availableHeight ∧
      ∀ t, s < t → t ≤ fs → t % 4 = 0 →
        availableHeight < totalTextHeight (measure t) := by
  intro fs
  induction fs using Nat.strong_induction_on with
  | _ fs ih =>
    intro s hmod hsome
    rw [fitFontSize] at hsome
    by_cases h24 : 24 ≤ fs
    · rw [dif_pos h24] at hsome
      by_cases hov : availableHeight < totalTextHeight (measure fs)
      · rw [if_pos hov] at hsome
        obtain ⟨h1, h2, h3, h4, h5⟩ := ih (fs - 4) (by omega) s (by omega) hsome
        refine ⟨h1, by omega, h3, h4, ?_⟩
        intro t hst htfs htmod
        by_cases hle : t ≤ fs - 4
        · exact h5 t hst hle htmod
        · have ht : t = fs := by omega
          rw [ht]
          exact hov
      · rw [if_neg hov] at hsome
        have hs : s = fs := by
          exact (Option.some_inj.mp hsome).symm
        subst hs
        exact ⟨h24, le_rfl, hmod, by omega, fun t hst htfs _ => by omega⟩
    · rw [dif_neg h24] at hsome
      exact absurd hsome (by simp)

theorem fitFontSize_none_iff (measure : Nat → List Nat) :
    ∀ fs, fs % 4 = 0 →
      (fitFontSize measure fs = none ↔
        ∀ t, 24 ≤ t → t ≤ fs → t % 4 = 0 →
          availableHeight < totalTextHeight (measure t)) := by
  intro fs
  induction fs using Nat.strong_induction_on with
  | _ fs ih =>
    intro hmod
    rw [fitFontSize]
    by_cases h24 : 24 ≤ fs
    · rw [dif_pos h24]
      by_cases hov : availableHeight < totalTextHeight (measure fs)
      · rw [if_pos hov, ih (fs - 4) (by omega) (by omega)]
        constructor
        · intro hall t ht24 htfs htmod
          by_cases hle : t ≤ fs - 4
          · exact hall t ht24 hle htmod
          · have ht : t = fs := by omega
            rw [ht]
            exact hov
        · intro hall t ht24 htfs htmod
          exact hall t ht24 (by omega) htmod
      · rw [if_neg hov]
        constructor
        · intro h
          exact absurd h (by simp)
        · intro hall
          exact absurd (hall fs h24 le_rfl hmod) hov
    · rw [dif_neg h24]
      constructor
      · intro _ t ht24 htfs htmod
        omega
      · intro _
        rfl

theorem fitPasses_le (measure : Nat → List Nat) :
    ∀ fs, fitPasses measure fs ≤ (fs - 20) / 4 := by
  intro fs
  induction fs using Nat.strong_induction_on with
  | _ fs ih =>
    rw [fitPasses]
    by_cases h24 : 24 ≤ fs
    · rw [dif_pos h24]
      by_cases hov : availableHeight < totalTextHeight (measure fs)
      · rw [if_pos hov]
        have hrec := ih (fs - 4) (by omega)
        omega
      · rw [if_neg hov]
        omega
    · rw [dif_neg h24]
      omega

/-! ## Claims about the Layout Fitter -/

/-- C1: for every title whose wrapped line heights at font size 24 sum to at
most the available height, the size search of `createSocialImage` accepts
some font size in the ladder 24, 28, ..., 96; the accepted size is the
largest ladder size whose total wrapped text height is at most the available
height, and at the accepted size the computed total height does not exceed
the available height. -/
theorem fit_accepts_largest_ladder_size (measureText : Nat → Nat → List Nat)
    (h24 : totalTextHeight (measureText 24 measureCallWidth) ≤ availableHeight) :
    ∃ s, createSocialImageFontSize measureText = some s ∧ inLadder s ∧
      totalTextHeight (measureText s measureCallWidth) ≤ availableHeight ∧
      ∀ t, inLadder t →
        totalTextHeight (measureText t measureCallWidth) ≤ availableHeight →
          t ≤ s := by
  cases hfit : fitFontSize (fun fs => measureText fs measureCallWidth) 96 with
  | none =>
      have hall := (fitFontSize_none_iff (fun fs => measureText fs measureCallWidth)
        96 (by omega)).mp hfit 24 (by omega) (by omega) (by omega)
      exact absurd hall (Nat.not_lt.mpr h24)
  | some s =>
      obtain ⟨h1, h2, h3, h4, h5⟩ := fitFontSize_some_spec
        (fun fs => measureText fs measureCallWidth) 96 s (by omega) hfit
      refine ⟨s, ?_, ⟨h1, h2, h3⟩, h4, ?_⟩
      · unfold createSocialImageFontSize
        exact hfit
      · intro t ht hfits
        by_contra hgt
        push_neg at hgt
        have := h5 t hgt ht.2.1 ht.2.2
        exact absurd hfits (by omega)

theorem fit_accepts_largest_ladder_size_witness :
    ∃ s, createSocialImageFontSize (fun _ _ => []) = some s ∧ inLadder s ∧
      totalTextHeight ((fun _ _ => ([] : List Nat)) s measureCallWidth) ≤
        availableHeight ∧
      ∀ t, inLadder t →
        totalTextHeight ((fun _ _ => ([] : List Nat)) t measureCallWidth) ≤
          availableHeight → t ≤ s :=
  fit_accepts_largest_ladder_size (fun _ _ => []) (by decide)

/-- C4: the size search fails (the function throws
`'Text is too long to fit on the image.'`) precisely when no font size in
the ladder 96, 92, ..., 24 fits; under the natural assumption that wrapped
text height is monotone in font size, this is precisely when even the
boundary size 24 produces a total height exceeding the available height;
and on that failure the caller receives no rendered image. -/
theorem fit_overflow_iff_no_ladder_size_fits (measureText : Nat → Nat → List Nat)
    (hmono : ∀ s t, s ≤ t →
      totalTextHeight (measureText s measureCallWidth) ≤
        totalTextHeight (measureText t measureCallWidth)) :
    (createSocialImageFontSize measureText = none ↔
      ∀ s, inLadder s →
        availableHeight < totalTextHeight (measureText s measureCallWidth)) ∧
    (createSocialImageFontSize measureText = none ↔
      availableHeight < totalTextHeight (measureText 24 measureCallWidth)) ∧
    ∀ name, createSocialImageFontSize measureText = none →
      createSocialImage measureText name =
        Except.error "Text is too long to fit on the image." := by
  have hiff := fitFontSize_none_iff (fun fs => measureText fs measureCallWidth)
    96 (by omega)
  refine ⟨?_, ?_, ?_⟩
  · unfold createSocialImageFontSize
    rw [hiff]
    constructor
    · intro hall s hs
      exact hall s hs.1 hs.2.1 hs.2.2
    · intro hall t h1 h2 h3
      exact hall t ⟨h1, h2, h3⟩
  · unfold createSocialImageFontSize
    rw [hiff]
    constructor
    · intro hall
      exact hall 24 (by omega) (by omega) (by omega)
    · intro h24 t ht24 _ _
      exact Nat.lt_of_lt_of_le h24 (hmono 24 t ht24)
  · intro name hnone
    unfold createSocialImageFontSize at hnone
    unfold createSocialImage
    rw [hnone]

theorem fit_overflow_iff_no_ladder_size_fits_witness :
    ((createSocialImageFontSize (fun _ _ => [600]) = none ↔
      ∀ s, inLadder s →
        availableHeight <
          totalTextHeight ((fun _ _ => ([600] : List Nat)) s measureCallWidth)) ∧
    (createSocialImageFontSize (fun _ _ => [600]) = none ↔
      availableHeight <
        totalTextHeight ((fun _ _ => ([600] : List Nat)) 24 measureCallWidth)) ∧
    ∀ name, createSocialImageFontSize (fun _ _ => [600]) = none →
      createSocialImage (fun _ _ => [600]) name =
        Except.error "Text is too long to fit on the image.") :=
  fit_overflow_iff_no_ladder_size_fits (fun _ _ => [600])
    (fun _ _ _ => Nat.le_refl _)

/-- C7: for every wrapping capability (hence every finite title, including a
single word wider than the wrap width at every tested size), the font-size
search loop of `createSocialImage` terminates, performing at most 19
measurement passes — one per ladder size from 96 down to 24. -/
theorem fit_at_most_19_passes (measureText : Nat → Nat → List Nat) :
    createSocialImagePasses measureText ≤ 19 := by
  have h := fitPasses_le (fun fs => measureText fs measureCallWidth) 96
  unfold createSocialImagePasses
  omega

/-- C9: on the empty title — whose wrapped layout has no lines — the fit
operation succeeds immediately, accepting font size 96, and
`createSocialImage` returns the drawn image at font size 96. -/
theorem fit_empty_title_accepts_96 (measureText : Nat → Nat → List Nat)
    (hempty : measureText 96 measureCallWidth = []) :
    createSocialImageFontSize measureText = some 96 ∧
    createSocialImage measureText "" =
      Except.ok ("", 96, textX, textY, drawTextWidth) := by
  have hfit : fitFontSize (fun fs => measureText fs measureCallWidth) 96 = some 96 := by
    have hcond : ¬ availableHeight <
        totalTextHeight ((fun fs => measureText fs measureCallWidth) 96) := by
      simp [hempty, totalTextHeight, availableHeight]
    rw [fitFontSize, dif_pos (by omega : 24 ≤ 96), if_neg hcond]
  constructor
  · unfold createSocialImageFontSize
    exact hfit
  · unfold createSocialImage
    rw [hfit]

theorem fit_empty_title_accepts_96_witness :
    createSocialImageFontSize (fun _ _ => []) = some 96 ∧
    createSocialImage (fun _ _ => []) "" =
      Except.ok ("", 96, textX, textY, drawTextWidth) :=
  fit_empty_title_accepts_96 (fun _ _ => []) rfl

/-- A concrete wrapping capability that distinguishes the measurement width
from the drawing width: it wraps to no lines when constrained to `maxWidth`,
and to a single overflowing line at any other width. -/
def widthProbe : Nat → Nat → List Nat :=
  fun _ w => if w = maxWidth then [] else [1000]

/-- Modelled from the spec: a size search whose wrapped layout is
constrained to `maxWidth` — the constraint width stated by the spec — for
comparison with the source's search, which measures at `maxWidth - textX`. -/
def specFontSizeAtMaxWidth (measureText : Nat → Nat → List Nat) : Option Nat :=
  fitFontSize (fun fs => measureText fs maxWidth) 96

/-- C6 counterexample: the width constraint the source passes to
`measureText` is `maxWidth - textX` = 1050, not `maxWidth` = 1100 (the width
used for drawing); on a wrapping capability that answers differently at the
two widths, the source's search rejects every size while the spec's
`maxWidth`-constrained search would accept 96. -/
theorem fit_measure_width_counterexample :
    measureCallWidth ≠ maxWidth ∧
    measureCallWidth = 1050 ∧ maxWidth = 1100 ∧ drawTextWidth = 1100 ∧
    createSocialImageFontSize widthProbe = none ∧
    specFontSizeAtMaxWidth widthProbe = some 96 := by
  refine ⟨by decide, by decide, by decide, by decide, ?_, ?_⟩
  · unfold createSocialImageFontSize
    rw [fitFontSize_none_iff (fun fs => widthProbe fs measureCallWidth) 96 (by omega)]
    intro t _ _ _
    show availableHeight < totalTextHeight (widthProbe t measureCallWidth)
    norm_num [widthProbe, totalTextHeight, availableHeight, measureCallWidth,
      maxWidth, canvasWidth, canvasHeight, textX, textY]
  · unfold specFontSizeAtMaxWidth
    rw [fitFontSize]
    norm_num [widthProbe, totalTextHeight, availableHeight, canvasHeight, textY]

/-- C6 amended: the fit operation computes the wrapped layout constrained to
`maxWidth - textX` = 1050 logical units at every tested font size (its
result depends only on the capability's answers at that width), while the
accepted text is drawn with max width `maxWidth` = 1100 — the measurement
width is `textX` = 50 units narrower than the drawing width. -/
theorem fit_measures_at_reduced_width (measureText mt2 : Nat → Nat → List Nat)
    (hagree : ∀ fs, measureText fs measureCallWidth = mt2 fs measureCallWidth) :
    createSocialImageFontSize measureText = createSocialImageFontSize mt2 ∧
    measureCallWidth = maxWidth - textX ∧
    measureCallWidth = 1050 ∧ drawTextWidth = maxWidth ∧ drawTextWidth = 1100 := by
  refine ⟨?_, rfl, by decide, rfl, by decide⟩
  unfold createSocialImageFontSize
  have hfun : (fun fs => measureText fs measureCallWidth) =
      fun fs => mt2 fs measureCallWidth := funext hagree
  rw [hfun]

theorem fit_measures_at_reduced_width_witness :
    createSocialImageFontSize (fun _ _ => []) =
      createSocialImageFontSize (fun _ _ => []) ∧
    measureCallWidth = maxWidth - textX ∧
    measureCallWidth = 1050 ∧ drawTextWidth = maxWidth ∧ drawTextWidth = 1100 :=
  fit_measures_at_reduced_width (fun _ _ => []) (fun _ _ => []) (fun _ => rfl)

/-! ## The content hash: `getImageHash` is MD5, hex digest

`createHash('md5').update(buffer).digest('hex')` embedded as the MD5
algorithm over byte lists (bytes as `Nat`, 32-bit words as `Nat` reduced
modulo `2 ^ 32`). -/

/-- Reduction of a word to 32 bits. -/
def mask32 (x : Nat) : Nat := x % 4294967296

/-- 32-bit left rotation (for `x < 2 ^ 32`, `s < 32`). -/
def rotl32 (x s : Nat) : Nat := mask32 ((x <<< s) ||| (x >>> (32 - s)))

/-- 32-bit bitwise complement. -/
def not32 (x : Nat) : Nat := Nat.xor x 4294967295

/-- The 64 MD5 sine-table constants. -/
def md5K : List Nat :=
  [0xd76aa478, 0xe8c7b756, 0x242070db, 0xc1bdceee,
   0xf57c0faf, 0x4787c62a, 0xa8304613, 0xfd469501,
   0x698098d8, 0x8b44f7af, 0xffff5bb1, 0x895cd7be,
   0x6b901122, 0xfd987193, 0xa679438e, 0x49b40821,
   0xf61e2562, 0xc040b340, 0x265e5a51, 0xe9b6c7aa,
   0xd62f105d, 0x02441453, 0xd8a1e681, 0xe7d3fbc8,
   0x21e1cde6, 0xc33707d6, 0xf4d50d87, 0x455a14ed,
   0xa9e3e905, 0xfcefa3f8, 0x676f02d9, 0x8d2a4c8a,
   0xfffa3942, 0x8771f681, 0x6d9d6122, 0xfde5380c,
   0xa4beea44, 0x4bdecfa9, 0xf6bb4b60, 0xbebfbc70,
   0x289b7ec6, 0xeaa127fa, 0xd4ef3085, 0x04881d05,
   0xd9d4d039, 0xe6db99e5, 0x1fa27cf8, 0xc4ac5665,
   0xf4292244, 0x432aff97, 0xab9423a7, 0xfc93a039,
   0x655b59c3, 0x8f0ccc92, 0xffeff47d, 0x85845dd1,
   0x6fa87e4f, 0xfe2ce6e0, 0xa3014314, 0x4e0811a1,
   0xf7537e82, 0xbd3af235, 0x2ad7d2bb, 0xeb86d391]

/-- The MD5 per-round shift amounts. -/
def md5S : List Nat :=
  [7, 12, 17, 22, 7, 12, 17, 22, 7, 12, 17, 22, 7, 12, 17, 22,
   5, 9, 14, 20, 5, 9, 14, 20, 5, 9, 14, 20, 5, 9, 14, 20,
   4, 11, 16, 23, 4, 11, 16, 23, 4, 11, 16, 23, 4, 11, 16, 23,
   6, 10, 15, 21, 6, 10, 15, 21, 6, 10, 15, 21, 6, 10, 15, 21]

/-- The MD5 round mixing function for round `i`. -/
def md5F (b c d i : Nat) : Nat :=
  if i < 16 then (b &&& c) ||| (not32 b &&& d)
  else if i < 32 then (d &&& b) ||| (not32 d &&& c)
  else if i < 48 then Nat.xor (Nat.xor b c) d
  else Nat.xor c (b ||| not32 d)

/-- The MD5 message-word index for round `i`. -/
def md5G (i : Nat) : Nat :=
  if i < 16 then i
  else if i < 32 then (5 * i + 1) % 16
  else if i < 48 then (3 * i + 5) % 16
  else (7 * i) % 16

/-- One MD5 round on the state `(a, b, c, d)` with message words `m`. -/
def md5Step (m : List Nat) (st : Nat × Nat × Nat × Nat) (i : Nat) :
    Nat × Nat × Nat × Nat :=
  let a := st.1
  let b := st.2.1
  let c := st.2.2.1
  let d := st.2.2.2
  let f := mask32 (a + md5F b c d i + md5K.getD i 0 + m.getD (md5G i) 0)
  (d, mask32 (b + rotl32 f (md5S.getD i 0)), b, c)

/-- One 64-byte-block compression. -/
def md5Compress (st : Nat × Nat × Nat × Nat) (block : List Nat) :
    Nat × Nat × Nat × Nat :=
  let r := (List.range 64).foldl (md5Step block) st
  (mask32 (st.1 + r.1), mask32 (st.2.1 + r.2.1),
   mask32 (st.2.2.1 + r.2.2.1), mask32 (st.2.2.2 + r.2.2.2))

/-- Little-endian byte expansion of `n` into `k` bytes. -/
def natToBytesLE (n : Nat) : Nat → List Nat
  | 0 => []
  | k + 1 => n % 256 :: natToBytesLE (n / 256) k

/-- MD5 padding: a `0x80` byte, zeros to 56 mod 64, then the bit length as
eight little-endian bytes. -/
def md5Pad (msg : List Nat) : List Nat :=
  let padZeros := (119 - msg.length % 64) % 64
  msg ++ 0x80 :: List.replicate padZeros 0 ++ natToBytesLE (msg.length * 8) 8

/-- Grouping of the padded bytes into little-endian 32-bit words. -/
def bytesToWordsLE : List Nat → List Nat
  | b0 :: b1 :: b2 :: b3 :: rest =>
      (b0 % 256 + b1 % 256 * 256 + b2 % 256 * 65536 + b3 % 256 * 16777216)
        :: bytesToWordsLE rest
  | _ => []

/-- Grouping of the word list into 16-word blocks. -/
def chunk16 : List Nat → List (List Nat)
  | a0 :: a1 :: a2 :: a3 :: a4 :: a5 :: a6 :: a7 ::
    a8 :: a9 :: a10 :: a11 :: a12 :: a13 :: a14 :: a15 :: rest =>
      [a0, a1, a2, a3, a4, a5, a6, a7, a8, a9, a10, a11, a12, a13, a14, a15]
        :: chunk16 rest
  | _ => []

/-- A lowercase hexadecimal digit. -/
def hexDigit (n : Nat) : Char :=
  if n < 10 then Char.ofNat (48 + n) else Char.ofNat (87 + n)

/-- Two-digit lowercase hex of one byte. -/
def byteToHex (b : Nat) : String :=
  String.mk [hexDigit (b / 16 % 16), hexDigit (b % 16)]

/-- Little-endian hex of one 32-bit word. -/
def wordToHexLE (w : Nat) : String :=
  byteToHex (w % 256) ++ byteToHex (w / 256 % 256) ++
    byteToHex (w / 65536 % 256) ++ byteToHex (w / 16777216 % 256)

/-- The MD5 hex digest of a byte list. -/
def md5Hex (bytes : List Nat) : String :=
  let blocks := chunk16 (bytesToWordsLE (md5Pad bytes))
  let st := blocks.foldl md5Compress (0x67452301, 0xefcdab89, 0x98badcfe, 0x10325476)
  wordToHexLE st.1 ++ wordToHexLE st.2.1 ++ wordToHexLE st.2.2.1 ++
    wordToHexLE st.2.2.2

/-- `getImageHash(buffer)`: `createHash('md5').update(buffer).digest('hex')`. -/
def getImageHash (buffer : List Nat) : String := md5Hex buffer

/-! ## The Content-Addressed Publisher: `uploadToCloudinary`

The resolved value of one publish decision, following the spec's reframing
of the logged results as explicit outcomes. -/

inductive Outcome
  | Uploaded
  | Skipped
  | Failed (reason : String)
deriving DecidableEq, Repr

/-- The raw result of `cloudinary.api.resource(folder/public_id, {context:
true})`: the record's `context.custom.hash` when the resource exists, or an
HTTP error with its code. -/
inductive QueryResult
  | found (ctxHash : Option String)
  | queryError (httpCode : Nat) (reason : String)
deriving DecidableEq, Repr

/-- The `.catch` handler on the resource query: an error with
`http_code === 404` yields no resources (`undefined`); any other error is
rethrown. -/
def catchNotFound : QueryResult → Except String (Option (Option String))
  | .found h => .ok (some h)
  | .queryError code reason =>
      if code ≠ 404 then .error reason else .ok none

/-- `cloudinary.uploader.upload_stream({..., overwrite: true, context:
hash}, callback).end(buffer)`: one upload call is issued; the completion
callback raises `Failed to upload image for "name"` when the upload reports
an error (`uploadErr`), reframed here as a synchronous resolution.  The
second component counts upload calls issued. -/
def uploadStreamCall (name : String) (uploadErr : Option String) :
    Except String Outcome × Nat :=
  match uploadErr with
  | some _ => (.error ("Failed to upload image for \"" ++ name ++ "\""), 1)
  | none => (.ok Outcome.Uploaded, 1)

/-- The body of `uploadToCloudinary`'s `try` block, from the resource query
on: skip when the record exists and its context hash equals `hash`,
otherwise upload.  Errors escaping the body are the `Except.error` case. -/
def uploadBody (name : String) (query : QueryResult) (hash : String)
    (uploadErr : Option String) : Except String Outcome × Nat :=
  match catchNotFound query with
  | .error e => (.error e, 0)
  | .ok existingResources =>
      match existingResources with
      | some ctxHash =>
          if ctxHash = some hash then (.ok Outcome.Skipped, 0)
          else uploadStreamCall name uploadErr
      | none => uploadStreamCall name uploadErr

/-- `uploadToCloudinary(name, canvas, format)`: the encoded image bytes
(`canvas.toBuffer(format, {density: 2})`) are hashed, the remote record is
queried, and the whole body runs inside `try { ... } catch (error) {
console.error(error) }` — every error the body raises is caught and logged,
and the call resolves normally; the logged error is the `Failed` outcome. -/
def uploadToCloudinary (name : String) (bytes : List Nat) (query : QueryResult)
    (uploadErr : Option String) : Outcome × Nat :=
  match uploadBody name query (getImageHash bytes) uploadErr with
  | (.ok o, n) => (o, n)
  | (.error e, n) => (Outcome.Failed e, n)

/-- The remote store as a map from identifiers to records; a record carries
the optional `context.custom.hash`. -/
def Store : Type := String → Option (Option String)

/-- The store's answer to the resource query: the record when one exists,
otherwise an HTTP 404. -/
def storeQuery (store : Store) (id : String) : QueryResult :=
  match store id with
  | some h => QueryResult.found h
  | none => QueryResult.queryError 404 "not found"

/-- The effect of a successful overwrite upload with `context: hash=...`:
the record at `id` now carries the uploaded hash. -/
def storePut (store : Store) (id : String) (hash : String) : Store :=
  fun k => if k = id then some (some hash) else store k

/-- One publish decision against a concrete store whose upload succeeds:
outcome, number of upload calls issued, and the store afterwards. -/
def publish (store : Store) (id : String) (bytes : List Nat) :
    Outcome × Nat × Store :=
  let hash := getImageHash bytes
  match uploadBody id (storeQuery store id) hash none with
  | (.ok Outcome.Uploaded, n) => (Outcome.Uploaded, n, storePut store id hash)
  | (.ok o, n) => (o, n, store)
  | (.error e, n) => (Outcome.Failed e, n, store)

/-- A batch of publish calls, one per item `(name, bytes, query result,
upload error)`: every item yields an outcome. -/
def runBatch (items : List (String × List Nat × QueryResult × Option String)) :
    List Outcome :=
  items.map fun item =>
    match item with
    | (name, bytes, query, uploadErr) =>
        (uploadToCloudinary name bytes query uploadErr).1

/-! ## Claims about the Content-Addressed Publisher -/

/-- C2: when the store record exists and carries a stored hash equal to the
hash of the encoded bytes, publish returns `Skipped` and issues no upload
call; and publishing twice in succession with identical content for the same
identifier yields `Uploaded` then `Skipped`, with no upload call on the
second publish. -/
theorem publish_skips_on_matching_hash (store : Store) (id : String)
    (bytes : List Nat) :
    (store id = some (some (getImageHash bytes)) →
      publish store id bytes = (Outcome.Skipped, 0, store)) ∧
    (store id = none →
      (publish store id bytes).1 = Outcome.Uploaded ∧
      (publish (publish store id bytes).2.2 id bytes).1 = Outcome.Skipped ∧
      (publish (publish store id bytes).2.2 id bytes).2.1 = 0) := by
  constructor
  · intro h
    simp [publish, uploadBody, catchNotFound, storeQuery, h]
  · intro h
    have h1 : publish store id bytes =
        (Outcome.Uploaded, 1, storePut store id (getImageHash bytes)) := by
      simp [publish, uploadBody, catchNotFound, storeQuery, uploadStreamCall, h]
    have h2 : storePut store id (getImageHash bytes) id =
        some (some (getImageHash bytes)) := by
      simp [storePut]
    have h3 : publish (storePut store id (getImageHash bytes)) id bytes =
        (Outcome.Skipped, 0, storePut store id (getImageHash bytes)) := by
      simp [publish, uploadBody, catchNotFound, storeQuery, h2]
    rw [h1]
    simp [h3]

theorem publish_skips_on_matching_hash_witness :
    publish (fun _ => some (some (getImageHash []))) "post" [] =
      (Outcome.Skipped, 0, fun _ => some (some (getImageHash []))) ∧
    ((publish (fun _ => none) "post" []).1 = Outcome.Uploaded ∧
     (publish (publish (fun _ => none) "post" []).2.2 "post" []).1 =
       Outcome.Skipped ∧
     (publish (publish (fun _ => none) "post" []).2.2 "post" []).2.1 = 0) :=
  ⟨(publish_skips_on_matching_hash
      (fun _ => some (some (getImageHash []))) "post" []).1 rfl,
   (publish_skips_on_matching_hash (fun _ => none) "post" []).2 rfl⟩

/-- C3: when the remote store query fails for any reason other than a 404
"not found", publish issues no upload call and the failure reaches the
caller as the `Failed(reason)` outcome (the logged error of the enclosing
catch) — it is not turned into a skip or an upload. -/
theorem publish_withholds_upload_on_indeterminate_read (name : String)
    (bytes : List Nat) (code : Nat) (reason : String) (uploadErr : Option String)
    (hcode : code ≠ 404) :
    uploadToCloudinary name bytes (QueryResult.queryError code reason) uploadErr =
      (Outcome.Failed reason, 0) := by
  simp [uploadToCloudinary, uploadBody, catchNotFound, hcode]

theorem publish_withholds_upload_on_indeterminate_read_witness :
    uploadToCloudinary "post" [] (QueryResult.queryError 500 "server down") none =
      (Outcome.Failed "server down", 0) :=
  publish_withholds_upload_on_indeterminate_read "post" [] 500 "server down"
    none (by decide)

/-- C5: for an identifier with no prior record, or whose stored hash differs
from the computed hash, publish uploads (exactly one upload call, with
overwrite semantics and the hash attached), returns `Uploaded`, and
afterwards the stored hash for that identifier equals the new content's
hash. -/
theorem publish_uploads_on_fresh_or_stale (store : Store) (id : String)
    (bytes : List Nat)
    (h : store id = none ∨
      ∃ oh, store id = some oh ∧ oh ≠ some (getImageHash bytes)) :
    (publish store id bytes).1 = Outcome.Uploaded ∧
    (publish store id bytes).2.1 = 1 ∧
    (publish store id bytes).2.2 id = some (some (getImageHash bytes)) := by
  have h1 : publish store id bytes =
      (Outcome.Uploaded, 1, storePut store id (getImageHash bytes)) := by
    rcases h with h | ⟨oh, h, hne⟩
    · simp [publish, uploadBody, catchNotFound, storeQuery, uploadStreamCall, h]
    · simp [publish, uploadBody, catchNotFound, storeQuery, uploadStreamCall,
        h, hne]
  rw [h1]
  exact ⟨rfl, rfl, by simp [storePut]⟩

theorem publish_uploads_on_fresh_or_stale_witness :
    (publish (fun _ => none) "post" []).1 = Outcome.Uploaded ∧
    (publish (fun _ => none) "post" []).2.1 = 1 ∧
    (publish (fun _ => none) "post" []).2.2 "post" =
      some (some (getImageHash [])) :=
  publish_uploads_on_fresh_or_stale (fun _ => none) "post" [] (Or.inl rfl)

/-- C8: the content hash is a deterministic function of the encoded image
bytes — encoding the same rendered image (under any encoder function of the
image alone) yields identical bytes, and `getImageHash` on identical bytes
yields an identical hash string. -/
theorem hash_deterministic {α : Type} (encode : α → List Nat) (img1 img2 : α)
    (h : img1 = img2) :
    encode img1 = encode img2 ∧
    getImageHash (encode img1) = getImageHash (encode img2) := by
  subst h
  exact ⟨rfl, rfl⟩

theorem hash_deterministic_witness :
    (fun _ => ([] : List Nat)) () = (fun _ => ([] : List Nat)) () ∧
    getImageHash ((fun _ => ([] : List Nat)) ()) =
      getImageHash ((fun _ => ([] : List Nat)) ()) :=
  hash_deterministic (fun _ => []) () () rfl

/-- C10: `uploadToCloudinary` never propagates an exception to its caller:
every error its body raises is caught by the enclosing try/catch and
surfaces as the logged `Failed` outcome, the call resolving normally — so a
batch over many identifiers produces one outcome per item regardless of
failures. -/
theorem publish_never_propagates (name : String) (bytes : List Nat)
    (query : QueryResult) (uploadErr : Option String) (e : String) (n : Nat)
    (items : List (String × List Nat × QueryResult × Option String))
    (h : uploadBody name query (getImageHash bytes) uploadErr =
      (Except.error e, n)) :
    uploadToCloudinary name bytes query uploadErr = (Outcome.Failed e, n) ∧
    (runBatch items).length = items.length := by
  constructor
  · simp [uploadToCloudinary, h]
  · simp [runBatch]

theorem publish_never_propagates_witness :
    uploadToCloudinary "post" [] (QueryResult.queryError 500 "boom") none =
      (Outcome.Failed "boom", 0) ∧
    (runBatch [("post", [], QueryResult.queryError 500 "boom", none),
               ("other", [], QueryResult.found none, none)]).length =
      [("post", ([] : List Nat), QueryResult.queryError 500 "boom",
          (none : Option String)),
       ("other", [], QueryResult.found none, none)].length :=
  publish_never_propagates "post" [] (QueryResult.queryError 500 "boom") none
    "boom" 0
    [("post", [], QueryResult.queryError 500 "boom", none),
     ("other", [], QueryResult.found none, none)] rfl

end SocialImages
